import Mathlib

/-!
Verification of the lifetime-management / message-relay / script-caching
subsystem of the vscode-react-native debugging bridge.

The embedding follows the TypeScript sources:
  * `src/common/node/request.ts`   — the conditional-GET HTTP client (`Request`)
  * `src/debugger/scriptImporter.ts` — bundle download and ETag cache (`ScriptImporter`)
and, for the connection supervisor (`MultipleLifetimesAppWorker`) and the
per-lifetime sandbox worker (`ForkedAppWorker`) whose implementations are not
part of the source tree (only their tests are), models written from the spec.

External collaborators (the HTTP stack, the file system, `SourceMapUtil`,
`Packager`) are passed in as explicit oracle functions; all I/O effects are
made visible as data (lists of issued requests, performed file writes,
constructed sockets, emitted events).
-/

/-! ### Character-list utilities

Node's `url` and `path` helpers are modelled over `List Char` with structural
recursion so that every definition evaluates inside the kernel. -/

/-- `listStartsWith l p` is true when `p` is an initial segment of `l`. -/
def listStartsWith : List Char → List Char → Bool
  | _, [] => true
  | [], _ :: _ => false
  | a :: as, b :: bs => a = b && listStartsWith as bs

/-- Split at the first occurrence of `sep` inside `l`: returns the part before
the separator and the part after it, or `none` when `sep` does not occur.
(For `sep = []` it trivially matches at the front.) -/
def breakOnSub (sep : List Char) : List Char → Option (List Char × List Char)
  | [] => if sep.isEmpty then some ([], []) else none
  | a :: as =>
    if listStartsWith (a :: as) sep then
      some ([], (a :: as).drop sep.length)
    else
      match breakOnSub sep as with
      | some (pre, post) => some (a :: pre, post)
      | none => none

/-- Boolean substring test on strings, used for the close-reason marker check. -/
def strContainsB (s sub : String) : Bool :=
  (breakOnSub sub.data s.data).isSome

/-- Propositional substring containment (used to state that error messages
mention the configured port). -/
def containsStr (s sub : String) : Prop :=
  ∃ a b : String, s = a ++ sub ++ b

/-- ASCII lower-casing of one character (Node lower-cases URL host names). -/
def asciiToLower (c : Char) : Char :=
  if 'A' ≤ c ∧ c ≤ 'Z' then Char.ofNat (c.toNat + 32) else c

/-- Lower-case a character list. -/
def toLowerList (l : List Char) : List Char := l.map asciiToLower

/-- Helper for `pathBasename`: keeps the characters seen since the last `/`. -/
def basenameAux : List Char → List Char → List Char
  | [], acc => acc.reverse
  | c :: cs, acc => if c = '/' then basenameAux cs [] else basenameAux cs (c :: acc)

/-- Model of Node `path.basename` for the slash-separated paths used here
(URL pathnames such as `/index.ios.bundle`, which have no trailing slash). -/
def pathBasename (p : String) : String :=
  String.mk (basenameAux p.data [])

/-- Model of Node `path.join` for one separator-free final component. -/
def pathJoin (a b : String) : String := a ++ "/" ++ b

/-! ### URLs

Model of the fields of Node's legacy `url.parse` result that this code reads
or writes (`protocol`, `host`, `hostname`, `port`, `pathname`, `search`). -/

structure Url where
  protocol : Option String
  host : Option String
  hostname : Option String
  port : Option String
  pathname : String
  search : String
deriving Repr, DecidableEq

/-- Model of Node legacy `url.parse` on the `scheme://host[:port]/path[?query]`
URLs this subsystem handles.  Host names are lower-cased as Node does; a
string with no `://` is returned as a bare path. -/
def urlParse (s : String) : Url :=
  match breakOnSub "://".data s.data with
  | none =>
    { protocol := none, host := none, hostname := none, port := none,
      pathname := s, search := "" }
  | some (proto, rest) =>
    let hostPath : List Char × List Char :=
      match breakOnSub ['/'] rest with
      | some (h, p) => (h, '/' :: p)
      | none => (rest, [])
    let pathSearch : List Char × List Char :=
      match breakOnSub ['?'] hostPath.2 with
      | some (p, q) => (p, '?' :: q)
      | none => (hostPath.2, [])
    let hostPort : List Char × Option (List Char) :=
      match breakOnSub [':'] hostPath.1 with
      | some (h, p) => (h, some p)
      | none => (hostPath.1, none)
    { protocol := some (String.mk (toLowerList proto) ++ ":"),
      host := some (String.mk (toLowerList hostPath.1)),
      hostname := some (String.mk (toLowerList hostPort.1)),
      port := hostPort.2.map String.mk,
      pathname := String.mk pathSearch.1,
      search := String.mk pathSearch.2 }

/-- The host part Node `url.format` actually prints: the `host` field when it
is set, otherwise `hostname` followed by `:port`.  (This is why the code must
delete `host` for a changed `port` to take effect.) -/
def Url.effectiveHost (u : Url) : String :=
  match u.host with
  | some h => h
  | none =>
    u.hostname.getD "" ++ (match u.port with | some p => ":" ++ p | none => "")

/-- Model of Node legacy `url.format` on the URL shapes used here. -/
def urlFormat (u : Url) : String :=
  u.protocol.getD "" ++ "//" ++ u.effectiveHost ++ u.pathname ++ u.search

deriving instance DecidableEq for Except

/-! ### HTTP model (`src/common/node/request.ts`)

An HTTP exchange is modelled by an oracle `HttpRequest → HttpResponse`: the
response the network would deliver to each request.  The `Request` class only
reads `statusCode`, the accumulated `body`, and the `etag` response header. -/

structure HttpRequest where
  url : String
  /-- The `If-None-Match` header, when attached. -/
  ifNoneMatch : Option String
deriving Repr, DecidableEq

structure HttpResponse where
  statusCode : Nat
  body : String
  /-- `res.headers.etag`, possibly absent. -/
  etag : Option String
deriving Repr, DecidableEq

/-- The `ScriptResponse` record resolved by `Request.requestWithEtag`. -/
structure ScriptResponse where
  etag : Option String
  code : Nat
  body : String
deriving Repr, DecidableEq

/-- JavaScript truthiness of a `string | null | undefined` value: `null`,
`undefined` and the empty string are falsy. -/
def jsTruthy : Option String → Bool
  | none => false
  | some s => !(s == "")

/-- The request `Request.requestWithEtag` hands to `http.get`: the plain URL,
with an `If-None-Match` header exactly when the given `etag` is truthy
(`if (etag) { request = { ...url.parse(scriptUrl), headers: ... } }`). -/
def requestWithEtag_request (scriptUrl : String) (etag : Option String) : HttpRequest :=
  if jsTruthy etag then
    { url := scriptUrl, ifNoneMatch := etag }
  else
    { url := scriptUrl, ifNoneMatch := none }

/-- `Request.requestWithEtag` (`request.ts` lines 15–37): issue the GET, treat
status 200 and 304 as success resolving `{ body, code, etag }` with the etag
read from the response headers, and reject with the body for any other
status. -/
def Request.requestWithEtag (http : HttpRequest → HttpResponse)
    (scriptUrl : String) (etag : Option String) : Except String ScriptResponse :=
  let res := http (requestWithEtag_request scriptUrl etag)
  if res.statusCode ≠ 200 ∧ res.statusCode ≠ 304 then
    Except.error res.body
  else
    Except.ok { body := res.body, code := res.statusCode, etag := res.etag }

/-- `Request.request` (`request.ts` lines 39–58): plain GET returning the body;
when `expectStatusOK` is set any status other than 200 rejects with the body. -/
def Request.request (http : HttpRequest → HttpResponse)
    (scriptUrl : String) (expectStatusOK : Bool) : Except String String :=
  let res := http { url := scriptUrl, ifNoneMatch := none }
  if expectStatusOK ∧ res.statusCode ≠ 200 then
    Except.error res.body
  else
    Except.ok res.body

/-! ### ScriptImporter (`src/debugger/scriptImporter.ts`)

The importer's collaborators — the file system (`fs.existsSync`,
`fs.writeFile`), the HTTP stack, and `SourceMapUtil` (which lives outside the
covered sources) — are oracle fields of `ImporterEnv`.  File writes are
returned as explicit `(path, content)` events. -/

structure ImporterEnv where
  /-- `new FileSystem().existsSync` at the time of the call. -/
  existsSync : String → Bool
  http : HttpRequest → HttpResponse
  /-- `SourceMapUtil.getSourceMapURL(scriptUrl, body)`. -/
  getSourceMapURL : Url → String → Option Url
  /-- `SourceMapUtil.updateScriptPaths(scriptBody, sourceMappingUrl)`. -/
  updateScriptPaths : String → Url → String
  /-- `SourceMapUtil.updateSourceMapFile(sourceMapBody, scriptFileRelativePath, sourcesStoragePath)`. -/
  updateSourceMapFile : String → String → String → String

/-- `ScriptImporter.overridePackagerPort` (`scriptImporter.ts` lines 108–113):
parse, set `port` to the configured packager port, delete `host` (otherwise
the port change would be ignored by `url.format`), and re-format. -/
def ScriptImporter.overridePackagerPort (packagerPort : Nat) (urlToOverride : String) : String :=
  let components := urlParse urlToOverride
  urlFormat { components with port := some (toString packagerPort), host := none }

/-- The URL string `downloadAppScript` fetches: the input with its port
overridden when its hostname is `"localhost"`, the input unchanged otherwise
(`scriptImporter.ts` lines 35–37). -/
def downloadAppScript_fetchUrl (packagerPort : Nat) (scriptUrlString : String) : String :=
  if (urlParse scriptUrlString).hostname = some "localhost" then
    ScriptImporter.overridePackagerPort packagerPort scriptUrlString
  else
    scriptUrlString

/-- The local cache path `scriptFilePath = path.join(sourcesStoragePath,
path.basename(scriptUrl.pathname))` (`scriptImporter.ts` line 40). -/
def downloadAppScript_localPath (packagerPort : Nat) (storagePath : String)
    (scriptUrlString : String) : String :=
  pathJoin storagePath
    (pathBasename (urlParse (downloadAppScript_fetchUrl packagerPort scriptUrlString)).pathname)

/-- The ETag actually used for the conditional GET: the remembered one, zeroed
out first when no file exists at the cache path (`scriptImporter.ts`
lines 42–45). -/
def downloadAppScript_etag (env : ImporterEnv) (packagerPort : Nat) (storagePath : String)
    (appScriptEtag : Option String) (scriptUrlString : String) : Option String :=
  if env.existsSync (downloadAppScript_localPath packagerPort storagePath scriptUrlString) then
    appScriptEtag
  else
    none

/-- The HTTP request `downloadAppScript` issues through
`Request.requestWithEtag`. -/
def downloadAppScript_request (env : ImporterEnv) (packagerPort : Nat) (storagePath : String)
    (appScriptEtag : Option String) (scriptUrlString : String) : HttpRequest :=
  requestWithEtag_request (downloadAppScript_fetchUrl packagerPort scriptUrlString)
    (downloadAppScript_etag env packagerPort storagePath appScriptEtag scriptUrlString)

/-- `ScriptImporter.writeAppSourceMap` (`scriptImporter.ts` lines 95–103):
fetch the sourcemap (`Request.request` with `expectStatusOK`), rewrite it for
local use, and write it next to the bundle.  The call is fire-and-forget in
the source; a rejected fetch simply produces no write. -/
def ScriptImporter.writeAppSourceMap (env : ImporterEnv) (storagePath : String)
    (sourceMapUrl scriptUrl : Url) : List (String × String) :=
  match Request.request env.http (urlFormat sourceMapUrl) true with
  | Except.error _ => []
  | Except.ok sourceMapBody =>
    [(pathJoin storagePath (pathBasename sourceMapUrl.pathname),
      env.updateSourceMapFile sourceMapBody (pathBasename scriptUrl.pathname) storagePath)]

/-- Everything observable about one `downloadAppScript` call: the settled
promise, the importer's `appScriptEtag` field afterwards, and the file writes
it performed (sourcemap write first when present, then the bundle write). -/
structure DownloadAppScriptResult where
  result : Except String String
  newEtag : Option String
  writes : List (String × String)
deriving Repr, DecidableEq

/-- `ScriptImporter.downloadAppScript` (`scriptImporter.ts` lines 33–77).
Mirrors the source: rewrite a localhost URL's port, compute the cache path,
zero the remembered ETag when the cached file is missing, issue the
conditional GET; on 304 return the cached path with no write, on 200 remember
the new ETag, rewrite/write the sourcemap when the body references one, write
the (possibly rewritten) body, and return the cache path.  A rejected request
rejects the call, leaving the (possibly zeroed) ETag in place. -/
def ScriptImporter.downloadAppScript (env : ImporterEnv) (packagerPort : Nat)
    (sourcesStoragePath : String) (appScriptEtag : Option String)
    (scriptUrlString : String) : DownloadAppScriptResult :=
  let overriddenScriptUrlString := downloadAppScript_fetchUrl packagerPort scriptUrlString
  let scriptUrl := urlParse overriddenScriptUrlString
  let scriptFilePath := downloadAppScript_localPath packagerPort sourcesStoragePath scriptUrlString
  let etag0 := downloadAppScript_etag env packagerPort sourcesStoragePath appScriptEtag scriptUrlString
  match Request.requestWithEtag env.http overriddenScriptUrlString etag0 with
  | Except.error e =>
    { result := Except.error e, newEtag := etag0, writes := [] }
  | Except.ok resp =>
    -- this.appScriptEtag = resp.etag
    if resp.code = 304 then
      { result := Except.ok scriptFilePath, newEtag := resp.etag, writes := [] }
    else
      match env.getSourceMapURL scriptUrl resp.body with
      | none =>
        { result := Except.ok scriptFilePath, newEtag := resp.etag,
          writes := [(scriptFilePath, resp.body)] }
      | some sourceMappingUrl =>
        { result := Except.ok scriptFilePath, newEtag := resp.etag,
          writes := ScriptImporter.writeAppSourceMap env sourcesStoragePath sourceMappingUrl scriptUrl
            ++ [(scriptFilePath, env.updateScriptPaths resp.body sourceMappingUrl)] }

/-- `ScriptImporter.DEBUGGER_WORKER_FILE_BASENAME` (`scriptImporter.ts` line 20). -/
def ScriptImporter.DEBUGGER_WORKER_FILE_BASENAME : String := "debuggerWorker"

/-- `ScriptImporter.DEBUGGER_WORKER_FILENAME` (`scriptImporter.ts` line 21). -/
def ScriptImporter.DEBUGGER_WORKER_FILENAME : String :=
  ScriptImporter.DEBUGGER_WORKER_FILE_BASENAME ++ ".js"

/-- The error thrown when the packager is not reachable
(`scriptImporter.ts` line 83). -/
def packagerNotRunningError (packagerPort : Nat) : String :=
  "Cannot attach to packager. Are you sure there is a packager and it is running in the port "
    ++ toString packagerPort
    ++ "? If your packager is configured to run in another port make sure to add that to the setting.json."

/-- Observable outcome of `downloadDebuggerWorker`: the settled promise and
the HTTP requests issued. -/
structure DownloadDebuggerWorkerResult where
  result : Except String String
  requests : List HttpRequest
deriving Repr, DecidableEq

/-- `ScriptImporter.downloadDebuggerWorker` (`scriptImporter.ts` lines 79–90):
check packager reachability (`Packager.isPackagerRunning`, an external
collaborator, passed as the boolean `isPackagerRunning`); when unreachable
reject with the port-naming error without any request; otherwise GET the
fixed-name bootstrap worker script from the proxy root (host resolved by the
external `Packager.getHostForPort`). -/
def ScriptImporter.downloadDebuggerWorker (http : HttpRequest → HttpResponse)
    (hostForPort : Nat → String) (isPackagerRunning : Bool)
    (packagerPort : Nat) : DownloadDebuggerWorkerResult :=
  if isPackagerRunning then
    let debuggerWorkerURL :=
      "http://" ++ hostForPort packagerPort ++ "/" ++ ScriptImporter.DEBUGGER_WORKER_FILENAME
    { result := Request.request http debuggerWorkerURL true,
      requests := [{ url := debuggerWorkerURL, ifNoneMatch := none }] }
  else
    { result := Except.error (packagerNotRunningError packagerPort), requests := [] }

/-! ### Wire messages and the spec-modelled supervisor components

The implementations of the connection supervisor
(`MultipleLifetimesAppWorker`, the spec's ConnectionManager) and of the
per-lifetime sandbox worker (`ForkedAppWorker`, the spec's SandboxWorker) are
not among the covered sources — only their unit tests are.  The definitions in
this section are therefore modelled from the spec (sections 4.1, 4.2, 5 and 8)
and checked against the observable behaviour the tests demand. -/

/-- A wire message: a JSON object with at least `method`, optionally `id` and
`url` (spec section 3, WireMessage). -/
structure WireMessage where
  method : String
  id : Option Int := none
  url : Option String := none
deriving Repr, DecidableEq

/-- Modelled from the spec: the observable events of the ConnectionManager
while it processes wire messages — stopping, creating and starting sandbox
workers (identified by creation order), the settling of a worker's `start()`
promise, replies sent on the socket, and messages forwarded to the active
worker. -/
inductive CMEvent where
  | stopWorker (w : Nat)
  | createWorker (w : Nat)
  | startSettled (w : Nat)
  | sendReply (id : Option Int)
  | forward (w : Nat) (msg : WireMessage)
deriving Repr, DecidableEq

/-- Modelled from the spec: the ConnectionManager's view of its lifetimes —
the currently active SandboxWorker, if any, and the id the next created
worker will get. -/
structure CMState where
  activeWorker : Option Nat
  nextId : Nat
deriving Repr, DecidableEq

/-- The state before any message has been processed. -/
def CMState.init : CMState := { activeWorker := none, nextId := 0 }

/-- Modelled from the spec (section 4.1, on-message): the
`MultipleLifetimesAppWorker` implementation is not among the covered sources.
On `prepareJSRuntime`, synchronously stop and discard the previous
SandboxWorker (if any), create and start a new one, and once its `start()`
promise settles send `{"replyID": <id>}` on the socket.  Any other message is
forwarded verbatim to the active worker, or discarded when none exists. -/
def CM.handleMessage (st : CMState) (msg : WireMessage) : CMState × List CMEvent :=
  if msg.method = "prepareJSRuntime" then
    let stops : List CMEvent :=
      match st.activeWorker with
      | some w => [CMEvent.stopWorker w]
      | none => []
    ({ activeWorker := some st.nextId, nextId := st.nextId + 1 },
      stops ++ [CMEvent.createWorker st.nextId, CMEvent.startSettled st.nextId,
        CMEvent.sendReply msg.id])
  else
    match st.activeWorker with
    | some w => (st, [CMEvent.forward w msg])
    | none => (st, [])

/-- Process a sequence of wire messages, accumulating the emitted events. -/
def CM.run : CMState → List WireMessage → CMState × List CMEvent
  | st, [] => (st, [])
  | st, m :: ms =>
    ((CM.run (CM.handleMessage st m).1 ms).1,
      (CM.handleMessage st m).2 ++ (CM.run (CM.handleMessage st m).1 ms).2)

/-- The workers created so far in an event trace. -/
def createdIn (tr : List CMEvent) : List Nat :=
  tr.filterMap fun e =>
    match e with
    | CMEvent.createWorker w => some w
    | _ => none

/-- The workers stopped so far in an event trace. -/
def stoppedIn (tr : List CMEvent) : List Nat :=
  tr.filterMap fun e =>
    match e with
    | CMEvent.stopWorker w => some w
    | _ => none

/-- The workers active after an event trace: created and not (yet) stopped. -/
def activeAfter (tr : List CMEvent) : List Nat :=
  (createdIn tr).filter fun w => decide (¬ w ∈ stoppedIn tr)

/-- Modelled from the spec (section 4.1, on-close): the close-reason marker
showing another debugger is already attached to the packager. -/
def ANOTHER_DEBUGGER_MARKER : String := "Another debugger is already connected"

/-- Modelled from the spec (section 4.1, on-close): the
`MultipleLifetimesAppWorker` implementation is not among the covered sources.
When the close reason contains the another-debugger marker, no reconnect is
scheduled; otherwise exactly one reconnection attempt (a fresh `start()`) is
scheduled 100 ms after the close event.  The result lists the fire times of
the scheduled attempts given the close time. -/
def CM.handleClose (closeReason : String) (closeTime : Nat) : List Nat :=
  if strContainsB closeReason ANOTHER_DEBUGGER_MARKER then
    []
  else
    [closeTime + 100]

/-- Modelled from the spec (section 4.1, `start()`): the
`MultipleLifetimesAppWorker` implementation is not among the covered sources.
`start()` first verifies through the external reachability check that the
packager is running; when it is not, the promise rejects with the port-naming
error and no socket is constructed; otherwise one socket to the debugger-proxy
endpoint is opened.  The second component lists the socket URLs constructed. -/
def CM.start (isPackagerRunning : Bool) (address : String) (port : Nat) :
    Except String Unit × List String :=
  if isPackagerRunning then
    (Except.ok (),
      ["ws://" ++ address ++ ":" ++ toString port ++ "/debugger-proxy?role=debugger"])
  else
    (Except.error (packagerNotRunningError port), [])

/-- Modelled from the spec (section 4.2, `postMessage`) and the worker's unit
tests: the `ForkedAppWorker` implementation is not among the covered sources.
For an `executeApplicationScript` message carrying a `url`, the worker
rewrites the URL's host to the configured packager address and port before
handing it to `ScriptImporter.downloadAppScript`. -/
def forkedRewriteUrl (packagerAddress : String) (packagerPort : Nat) (u : String) : String :=
  urlFormat { urlParse u with
    host := some (packagerAddress ++ ":" ++ toString packagerPort),
    hostname := some packagerAddress,
    port := some (toString packagerPort) }

/-- Modelled from the spec (section 4.2, `postMessage`): the `ForkedAppWorker`
implementation is not among the covered sources.  An
`executeApplicationScript` message has its bundle resolved through
`downloadAppScript` (given here as an oracle from the fetched URL to the local
file path it produces) and is forwarded with `url` replaced by that local
path, all other fields unchanged; any other message is forwarded unchanged.
The first component lists the URLs passed to `downloadAppScript`. -/
def ForkedAppWorker.postMessage (packagerAddress : String) (packagerPort : Nat)
    (downloadAppScript : String → String) (msg : WireMessage) :
    List String × WireMessage :=
  if msg.method = "executeApplicationScript" then
    match msg.url with
    | some u =>
      let overridden := forkedRewriteUrl packagerAddress packagerPort u
      ([overridden], { msg with url := some (downloadAppScript overridden) })
    | none => ([], msg)
  else
    ([], msg)

/-- The invariant tying the manager's state to the trace emitted so far:
workers are created with consecutive ids, and every worker but the currently
active one (the most recently created) has been stopped. -/
def CMInv (st : CMState) (tr : List CMEvent) : Prop :=
  (st.activeWorker = none ∧ st.nextId = 0 ∧ createdIn tr = [] ∧ stoppedIn tr = []) ∨
  (∃ k, st.activeWorker = some k ∧ st.nextId = k + 1 ∧
    createdIn tr = List.range (k + 1) ∧ stoppedIn tr = List.range k)

/-- The safety property of a trace: after every prefix at most one worker is
active, and at every `createWorker` event no worker is active (the previous
lifetime has already been stopped). -/
def GoodTrace (tr : List CMEvent) : Prop :=
  ∀ t1 t2 : List CMEvent, tr = t1 ++ t2 →
    (activeAfter t1).length ≤ 1 ∧
    (∀ w t2', t2 = CMEvent.createWorker w :: t2' → activeAfter t1 = [])

/-- A trace is reply-guarded when every reply event is immediately preceded by
the creation and start-settling of a worker. -/
def ReplyGuarded (tr : List CMEvent) : Prop :=
  ∀ (n : Option Int) (t1 t2 : List CMEvent), tr = t1 ++ CMEvent.sendReply n :: t2 →
    ∃ t0 w, t1 = t0 ++ [CMEvent.createWorker w, CMEvent.startSettled w]

/-! ### Helper lemmas about `downloadAppScript` -/

/-- Whenever `downloadAppScript` resolves, the value it resolves with is the
computed local cache path. -/
theorem downloadAppScript_ok_path (env : ImporterEnv) (pp : Nat) (storage : String)
    (st : Option String) (s : String) (p : String)
    (h : (ScriptImporter.downloadAppScript env pp storage st s).result = Except.ok p) :
    p = downloadAppScript_localPath pp storage s := by
  unfold ScriptImporter.downloadAppScript Request.requestWithEtag at h
  simp only at h
  split at h
  · exact absurd h (by simp)
  · split at h
    · simpa using h.symm
    · split at h
      · simpa using h.symm
      · simpa using h.symm

/-- On a 304 response `downloadAppScript` returns the cache path, stores the
response ETag, and performs no write. -/
theorem downloadAppScript_on_304 (env : ImporterEnv) (pp : Nat) (storage : String)
    (st : Option String) (s : String)
    (h304 : (env.http (downloadAppScript_request env pp storage st s)).statusCode = 304) :
    ScriptImporter.downloadAppScript env pp storage st s =
      { result := Except.ok (downloadAppScript_localPath pp storage s),
        newEtag := (env.http (downloadAppScript_request env pp storage st s)).etag,
        writes := [] } := by
  unfold ScriptImporter.downloadAppScript Request.requestWithEtag
  simp only [downloadAppScript_request] at h304
  simp [h304, downloadAppScript_request]

/-! ### Claims about ScriptImporter and the HTTP client -/

/-- C5: for a pair of consecutive `downloadAppScript` calls with the same
script URL where the cached file exists and the second response has code 304
(the server's ETag being unchanged), the second call returns the same local
file path as the first and performs no file write. -/
theorem downloadAppScript_304_idempotent (env1 env2 : ImporterEnv) (pp : Nat)
    (storage : String) (st0 : Option String) (s : String) (p1 : String)
    (h1 : (ScriptImporter.downloadAppScript env1 pp storage st0 s).result = Except.ok p1)
    (hcache : env2.existsSync (downloadAppScript_localPath pp storage s) = true)
    (h304 : (env2.http (downloadAppScript_request env2 pp storage
        (ScriptImporter.downloadAppScript env1 pp storage st0 s).newEtag s)).statusCode = 304) :
    (ScriptImporter.downloadAppScript env2 pp storage
        (ScriptImporter.downloadAppScript env1 pp storage st0 s).newEtag s).result =
      Except.ok p1 ∧
    (ScriptImporter.downloadAppScript env2 pp storage
        (ScriptImporter.downloadAppScript env1 pp storage st0 s).newEtag s).writes = [] := by
  have hp := downloadAppScript_ok_path env1 pp storage st0 s p1 h1
  have h2 := downloadAppScript_on_304 env2 pp storage
    (ScriptImporter.downloadAppScript env1 pp storage st0 s).newEtag s h304
  rw [h2, hp]
  exact ⟨rfl, rfl⟩

/-- C5 witness: a concrete first call answered 200 followed by a second call
answered 304 with the cache present. -/
theorem downloadAppScript_304_idempotent_witness :
    (ScriptImporter.downloadAppScript
        { existsSync := fun _ => false,
          http := fun _ => { statusCode := 200, body := "BUNDLE", etag := some "E1" },
          getSourceMapURL := fun _ _ => none,
          updateScriptPaths := fun b _ => b,
          updateSourceMapFile := fun b _ _ => b }
        8081 "/tmp/storage" none "http://localhost:8081/index.ios.bundle").result =
      Except.ok "/tmp/storage/index.ios.bundle" ∧
    (ScriptImporter.downloadAppScript
        { existsSync := fun _ => true,
          http := fun _ => { statusCode := 304, body := "", etag := some "E1" },
          getSourceMapURL := fun _ _ => none,
          updateScriptPaths := fun b _ => b,
          updateSourceMapFile := fun b _ _ => b }
        8081 "/tmp/storage"
        (ScriptImporter.downloadAppScript
          { existsSync := fun _ => false,
            http := fun _ => { statusCode := 200, body := "BUNDLE", etag := some "E1" },
            getSourceMapURL := fun _ _ => none,
            updateScriptPaths := fun b _ => b,
            updateSourceMapFile := fun b _ _ => b }
          8081 "/tmp/storage" none "http://localhost:8081/index.ios.bundle").newEtag
        "http://localhost:8081/index.ios.bundle").result =
      Except.ok "/tmp/storage/index.ios.bundle" ∧
    (ScriptImporter.downloadAppScript
        { existsSync := fun _ => true,
          http := fun _ => { statusCode := 304, body := "", etag := some "E1" },
          getSourceMapURL := fun _ _ => none,
          updateScriptPaths := fun b _ => b,
          updateSourceMapFile := fun b _ _ => b }
        8081 "/tmp/storage"
        (ScriptImporter.downloadAppScript
          { existsSync := fun _ => false,
            http := fun _ => { statusCode := 200, body := "BUNDLE", etag := some "E1" },
            getSourceMapURL := fun _ _ => none,
            updateScriptPaths := fun b _ => b,
            updateSourceMapFile := fun b _ _ => b }
          8081 "/tmp/storage" none "http://localhost:8081/index.ios.bundle").newEtag
        "http://localhost:8081/index.ios.bundle").writes = [] := by
  have h := downloadAppScript_304_idempotent
    { existsSync := fun _ => false,
      http := fun _ => { statusCode := 200, body := "BUNDLE", etag := some "E1" },
      getSourceMapURL := fun _ _ => none,
      updateScriptPaths := fun b _ => b,
      updateSourceMapFile := fun b _ _ => b }
    { existsSync := fun _ => true,
      http := fun _ => { statusCode := 304, body := "", etag := some "E1" },
      getSourceMapURL := fun _ _ => none,
      updateScriptPaths := fun b _ => b,
      updateSourceMapFile := fun b _ _ => b }
    8081 "/tmp/storage" none "http://localhost:8081/index.ios.bundle"
    "/tmp/storage/index.ios.bundle" (by decide) (by decide) (by decide)
  exact ⟨by decide, h.1, h.2⟩

/-- C6: when no file exists at the computed cache path, the remembered ETag is
discarded before the request is issued, so the request carries no
`If-None-Match` header, and the (full-fetch) call writes the body to the
cache path and resolves with it. -/
theorem downloadAppScript_fresh_fetch (env : ImporterEnv) (pp : Nat) (storage : String)
    (st0 : Option String) (s : String)
    (hmiss : env.existsSync (downloadAppScript_localPath pp storage s) = false)
    (h200 : (env.http (downloadAppScript_request env pp storage st0 s)).statusCode = 200) :
    (downloadAppScript_request env pp storage st0 s).ifNoneMatch = none ∧
    (ScriptImporter.downloadAppScript env pp storage st0 s).result =
      Except.ok (downloadAppScript_localPath pp storage s) ∧
    ∃ b, (downloadAppScript_localPath pp storage s, b) ∈
      (ScriptImporter.downloadAppScript env pp storage st0 s).writes := by
  have hetag : downloadAppScript_etag env pp storage st0 s = none := by
    simp [downloadAppScript_etag, hmiss]
  refine ⟨?_, ?_⟩
  · simp [downloadAppScript_request, hetag, requestWithEtag_request, jsTruthy]
  · simp only [downloadAppScript_request] at h200
    unfold ScriptImporter.downloadAppScript Request.requestWithEtag
    simp only [h200]
    rcases hsm : env.getSourceMapURL (urlParse (downloadAppScript_fetchUrl pp s))
        ((env.http (requestWithEtag_request (downloadAppScript_fetchUrl pp s)
          (downloadAppScript_etag env pp storage st0 s))).body) with _ | sm
    · simp [h200, hsm]
    · simp [h200, hsm]

/-- C6 witness: cache file missing, remembered ETag present, server answers
200; no header is sent and the bundle is written. -/
theorem downloadAppScript_fresh_fetch_witness :
    (downloadAppScript_request
        { existsSync := fun _ => false,
          http := fun _ => { statusCode := 200, body := "BUNDLE", etag := some "E2" },
          getSourceMapURL := fun _ _ => none,
          updateScriptPaths := fun b _ => b,
          updateSourceMapFile := fun b _ _ => b }
        8081 "/tmp/storage" (some "E1") "http://localhost:8081/index.ios.bundle").ifNoneMatch =
      none ∧
    (ScriptImporter.downloadAppScript
        { existsSync := fun _ => false,
          http := fun _ => { statusCode := 200, body := "BUNDLE", etag := some "E2" },
          getSourceMapURL := fun _ _ => none,
          updateScriptPaths := fun b _ => b,
          updateSourceMapFile := fun b _ _ => b }
        8081 "/tmp/storage" (some "E1") "http://localhost:8081/index.ios.bundle").result =
      Except.ok (downloadAppScript_localPath 8081 "/tmp/storage"
        "http://localhost:8081/index.ios.bundle") ∧
    ∃ b, (downloadAppScript_localPath 8081 "/tmp/storage"
        "http://localhost:8081/index.ios.bundle", b) ∈
      (ScriptImporter.downloadAppScript
        { existsSync := fun _ => false,
          http := fun _ => { statusCode := 200, body := "BUNDLE", etag := some "E2" },
          getSourceMapURL := fun _ _ => none,
          updateScriptPaths := fun b _ => b,
          updateSourceMapFile := fun b _ _ => b }
        8081 "/tmp/storage" (some "E1") "http://localhost:8081/index.ios.bundle").writes := by
  have h := downloadAppScript_fresh_fetch
    { existsSync := fun _ => false,
      http := fun _ => { statusCode := 200, body := "BUNDLE", etag := some "E2" },
      getSourceMapURL := fun _ _ => none,
      updateScriptPaths := fun b _ => b,
      updateSourceMapFile := fun b _ _ => b }
    8081 "/tmp/storage" (some "E1") "http://localhost:8081/index.ios.bundle"
    (by decide) (by decide)
  exact h

/-- C7: a URL whose parsed hostname is `"localhost"` is fetched with its port
replaced by the configured packager port and its `host` field cleared (so the
new port takes effect in the formatted host); any other URL is fetched
unmodified. -/
theorem downloadAppScript_port_override (packagerPort : Nat) (s : String) :
    ((urlParse s).hostname = some "localhost" →
      downloadAppScript_fetchUrl packagerPort s =
        urlFormat { urlParse s with port := some (toString packagerPort), host := none } ∧
      Url.effectiveHost { urlParse s with port := some (toString packagerPort), host := none } =
        "localhost:" ++ toString packagerPort) ∧
    ((urlParse s).hostname ≠ some "localhost" →
      downloadAppScript_fetchUrl packagerPort s = s) := by
  constructor
  · intro h
    constructor
    · simp [downloadAppScript_fetchUrl, h, ScriptImporter.overridePackagerPort]
    · show Url.effectiveHost _ = _
      simp only [Url.effectiveHost, h]
      rfl
  · intro h
    simp [downloadAppScript_fetchUrl, h]

/-- C7 witness: the port of a localhost bundle URL is rewritten to the
configured port; a non-localhost URL passes through unchanged. -/
theorem downloadAppScript_port_override_witness :
    (urlParse "http://localhost:8081/index.ios.bundle?platform=ios").hostname =
      some "localhost" ∧
    downloadAppScript_fetchUrl 8088 "http://localhost:8081/index.ios.bundle?platform=ios" =
      "http://localhost:8088/index.ios.bundle?platform=ios" ∧
    downloadAppScript_fetchUrl 8088 "http://example.com:8081/index.ios.bundle" =
      "http://example.com:8081/index.ios.bundle" := by
  refine ⟨by decide, ?_, ?_⟩
  · have h := (downloadAppScript_port_override 8088
      "http://localhost:8081/index.ios.bundle?platform=ios").1 (by decide)
    rw [h.1]
    decide
  · exact (downloadAppScript_port_override 8088
      "http://example.com:8081/index.ios.bundle").2 (by decide)

/-- C8 (amended): `requestWithEtag` attaches an `If-None-Match` header equal
to the given ETag if and only if a non-empty ETag is supplied (the code's
`if (etag)` treats the empty string like `null`); a 200 or 304 response
resolves `{ body, code, etag }` with the etag taken from the response
headers; any other status rejects with the response body as the message. -/
theorem requestWithEtag_contract (http : HttpRequest → HttpResponse)
    (u : String) (etag : Option String) :
    ((∃ e, etag = some e ∧ e ≠ "") →
      (requestWithEtag_request u etag).ifNoneMatch = etag) ∧
    ((etag = none ∨ etag = some "") →
      (requestWithEtag_request u etag).ifNoneMatch = none) ∧
    ((http (requestWithEtag_request u etag)).statusCode = 200 ∨
        (http (requestWithEtag_request u etag)).statusCode = 304 →
      Request.requestWithEtag http u etag =
        Except.ok
          { body := (http (requestWithEtag_request u etag)).body,
            code := (http (requestWithEtag_request u etag)).statusCode,
            etag := (http (requestWithEtag_request u etag)).etag }) ∧
    ((http (requestWithEtag_request u etag)).statusCode ≠ 200 →
      (http (requestWithEtag_request u etag)).statusCode ≠ 304 →
      Request.requestWithEtag http u etag =
        Except.error (http (requestWithEtag_request u etag)).body) := by
  refine ⟨?_, ?_, ?_, ?_⟩
  · rintro ⟨e, rfl, he⟩
    simp [requestWithEtag_request, jsTruthy, he]
  · rintro (rfl | rfl) <;> simp [requestWithEtag_request, jsTruthy]
  · intro h
    unfold Request.requestWithEtag
    rcases h with h | h <;> simp [h]
  · intro h1 h2
    unfold Request.requestWithEtag
    simp [h1, h2]

/-- C8 counterexample: the claim says the header is attached iff an ETag is
supplied, but supplying the empty-string ETag (a legal `string` value)
attaches no header, because the code's truthiness test rejects it. -/
theorem requestWithEtag_iff_counterexample :
    (some "" : Option String) ≠ none ∧
    (requestWithEtag_request "http://localhost:8081/index.bundle" (some "")).ifNoneMatch ≠
      some "" ∧
    (requestWithEtag_request "http://localhost:8081/index.bundle" (some "")).ifNoneMatch =
      none := by decide

/-- C8 witness: a non-empty ETag is attached, and a 200 response resolves with
the header etag. -/
theorem requestWithEtag_contract_witness :
    (requestWithEtag_request "http://localhost:8081/index.bundle" (some "E0")).ifNoneMatch =
      some "E0" ∧
    Request.requestWithEtag
        (fun _ => { statusCode := 200, body := "BODY", etag := some "E1" })
        "http://localhost:8081/index.bundle" (some "E0") =
      Except.ok { body := "BODY", code := 200, etag := some "E1" } := by
  have h := requestWithEtag_contract
    (fun _ => { statusCode := 200, body := "BODY", etag := some "E1" })
    "http://localhost:8081/index.bundle" (some "E0")
  exact ⟨h.1 ⟨"E0", rfl, by decide⟩, h.2.2.1 (Or.inl rfl)⟩

/-- C9: when the reachability check reports the packager as not running,
`downloadDebuggerWorker` rejects with an error naming the configured port and
issues no HTTP request, and the (spec-modelled) ConnectionManager `start`
rejects the same way constructing no socket; when the packager is reachable,
`downloadDebuggerWorker` fetches the fixed-name bootstrap worker script from
the proxy root and returns its raw body. -/
theorem downloadDebuggerWorker_reachability (http : HttpRequest → HttpResponse)
    (hostForPort : Nat → String) (address : String) (pp : Nat) (isRunning : Bool) :
    (isRunning = false →
      (ScriptImporter.downloadDebuggerWorker http hostForPort isRunning pp).result =
        Except.error (packagerNotRunningError pp) ∧
      containsStr (packagerNotRunningError pp) (toString pp) ∧
      (ScriptImporter.downloadDebuggerWorker http hostForPort isRunning pp).requests = [] ∧
      (CM.start isRunning address pp).1 = Except.error (packagerNotRunningError pp) ∧
      (CM.start isRunning address pp).2 = []) ∧
    (isRunning = true →
      (ScriptImporter.downloadDebuggerWorker http hostForPort isRunning pp).requests =
        [{ url := "http://" ++ hostForPort pp ++ "/" ++ ScriptImporter.DEBUGGER_WORKER_FILENAME,
           ifNoneMatch := none }] ∧
      ((http { url := "http://" ++ hostForPort pp ++ "/" ++ ScriptImporter.DEBUGGER_WORKER_FILENAME, ifNoneMatch := none }).statusCode = 200 →
        (ScriptImporter.downloadDebuggerWorker http hostForPort isRunning pp).result =
          Except.ok (http { url := "http://" ++ hostForPort pp ++ "/" ++ ScriptImporter.DEBUGGER_WORKER_FILENAME, ifNoneMatch := none }).body)) := by
  constructor
  · rintro rfl
    refine ⟨rfl, ?_, rfl, rfl, rfl⟩
    exact ⟨"Cannot attach to packager. Are you sure there is a packager and it is running in the port ",
      "? If your packager is configured to run in another port make sure to add that to the setting.json.",
      rfl⟩
  · rintro rfl
    refine ⟨rfl, fun h => ?_⟩
    simp [ScriptImporter.downloadDebuggerWorker, Request.request, h]

/-- C9 witness: with the packager down the call fails naming port 8081 without
requests and no socket is constructed; with it up the worker script is
fetched from the proxy root. -/
theorem downloadDebuggerWorker_reachability_witness :
    (ScriptImporter.downloadDebuggerWorker
        (fun _ => { statusCode := 200, body := "WORKER", etag := none })
        (fun p => "localhost:" ++ toString p) false 8081).result =
      Except.error (packagerNotRunningError 8081) ∧
    containsStr (packagerNotRunningError 8081) (toString 8081) ∧
    (ScriptImporter.downloadDebuggerWorker
        (fun _ => { statusCode := 200, body := "WORKER", etag := none })
        (fun p => "localhost:" ++ toString p) false 8081).requests = [] ∧
    (CM.start false "localhost" 8081).1 = Except.error (packagerNotRunningError 8081) ∧
    (CM.start false "localhost" 8081).2 = [] := by
  exact (downloadDebuggerWorker_reachability
    (fun _ => { statusCode := 200, body := "WORKER", etag := none })
    (fun p => "localhost:" ++ toString p) "localhost" 8081 false).1 rfl

/-- C10: after a successful `downloadAppScript` call (200 or 304 alike) the
remembered ETag is overwritten with the ETag header of that response; in
particular, when a 304 response carries no ETag header, the remembered ETag
becomes null and the next call issues an unconditional GET. -/
theorem downloadAppScript_etag_overwrite (env : ImporterEnv) (pp : Nat) (storage : String)
    (st0 : Option String) (s : String)
    (hok : (env.http (downloadAppScript_request env pp storage st0 s)).statusCode = 200 ∨
      (env.http (downloadAppScript_request env pp storage st0 s)).statusCode = 304) :
    (ScriptImporter.downloadAppScript env pp storage st0 s).newEtag =
      (env.http (downloadAppScript_request env pp storage st0 s)).etag ∧
    ((env.http (downloadAppScript_request env pp storage st0 s)).etag = none →
      ∀ env2 : ImporterEnv,
        (downloadAppScript_request env2 pp storage
          (ScriptImporter.downloadAppScript env pp storage st0 s).newEtag s).ifNoneMatch =
        none) := by
  have hnew : (ScriptImporter.downloadAppScript env pp storage st0 s).newEtag =
      (env.http (downloadAppScript_request env pp storage st0 s)).etag := by
    simp only [downloadAppScript_request] at hok
    unfold ScriptImporter.downloadAppScript Request.requestWithEtag
    simp only [downloadAppScript_request]
    rcases hok with h | h
    · rcases hsm : env.getSourceMapURL (urlParse (downloadAppScript_fetchUrl pp s))
          ((env.http (requestWithEtag_request (downloadAppScript_fetchUrl pp s)
            (downloadAppScript_etag env pp storage st0 s))).body) with _ | sm <;>
        simp [h, hsm]
    · simp [h]
  refine ⟨hnew, fun hnone env2 => ?_⟩
  rw [hnew, hnone]
  unfold downloadAppScript_request downloadAppScript_etag requestWithEtag_request
  split <;> simp [jsTruthy]

/-- C10 witness: a 304 response with no ETag header leaves the importer with a
null remembered ETag, so the next request carries no `If-None-Match` header
although the cached file is unchanged. -/
theorem downloadAppScript_etag_overwrite_witness :
    (ScriptImporter.downloadAppScript
        { existsSync := fun _ => true,
          http := fun _ => { statusCode := 304, body := "", etag := none },
          getSourceMapURL := fun _ _ => none,
          updateScriptPaths := fun b _ => b,
          updateSourceMapFile := fun b _ _ => b }
        8081 "/tmp/storage" (some "E1") "http://localhost:8081/index.ios.bundle").newEtag =
      none ∧
    (downloadAppScript_request
        { existsSync := fun _ => true,
          http := fun _ => { statusCode := 304, body := "", etag := none },
          getSourceMapURL := fun _ _ => none,
          updateScriptPaths := fun b _ => b,
          updateSourceMapFile := fun b _ _ => b }
        8081 "/tmp/storage"
        (ScriptImporter.downloadAppScript
          { existsSync := fun _ => true,
            http := fun _ => { statusCode := 304, body := "", etag := none },
            getSourceMapURL := fun _ _ => none,
            updateScriptPaths := fun b _ => b,
            updateSourceMapFile := fun b _ _ => b }
          8081 "/tmp/storage" (some "E1")
          "http://localhost:8081/index.ios.bundle").newEtag
        "http://localhost:8081/index.ios.bundle").ifNoneMatch = none := by
  have h := downloadAppScript_etag_overwrite
    { existsSync := fun _ => true,
      http := fun _ => { statusCode := 304, body := "", etag := none },
      getSourceMapURL := fun _ _ => none,
      updateScriptPaths := fun b _ => b,
      updateSourceMapFile := fun b _ _ => b }
    8081 "/tmp/storage" (some "E1") "http://localhost:8081/index.ios.bundle"
    (Or.inr (by decide))
  exact ⟨by decide, h.2 (by decide) _⟩

/-! ### Claims about the spec-modelled supervisor components -/

/-- C2: a `postMessage` call whose message has method
`executeApplicationScript` and a url forwards the message with `url` replaced
by the local file path produced by `downloadAppScript`, every other field
unchanged, and invokes `downloadAppScript` exactly once, with the URL
rewritten to the configured packager address and port. -/
theorem forked_executeApplicationScript_rewrite (addr : String) (pp : Nat)
    (download : String → String) (msg : WireMessage) (u : String)
    (hm : msg.method = "executeApplicationScript") (hu : msg.url = some u) :
    ForkedAppWorker.postMessage addr pp download msg =
      ([forkedRewriteUrl addr pp u],
        { msg with url := some (download (forkedRewriteUrl addr pp u)) }) ∧
    (ForkedAppWorker.postMessage addr pp download msg).1.length = 1 := by
  have h : ForkedAppWorker.postMessage addr pp download msg =
      ([forkedRewriteUrl addr pp u],
        { msg with url := some (download (forkedRewriteUrl addr pp u)) }) := by
    unfold ForkedAppWorker.postMessage
    rw [hm, hu]
    simp
  exact ⟨h, by rw [h]; rfl⟩

/-- C2 witness: the remote-packager scenario from the worker's unit test —
the bundle URL `http://localhost:8081/test-url` is rewritten to the
configured `1.2.3.4:1337`, downloaded once, and forwarded with the local
path. -/
theorem forked_executeApplicationScript_rewrite_witness :
    ({ method := "executeApplicationScript", url := some "http://localhost:8081/test-url" }
        : WireMessage).method = "executeApplicationScript" ∧
    ForkedAppWorker.postMessage "1.2.3.4" 1337 (fun _ => "/home/test/file")
        { method := "executeApplicationScript", url := some "http://localhost:8081/test-url" } =
      (["http://1.2.3.4:1337/test-url"],
        { method := "executeApplicationScript", url := some "/home/test/file" }) := by
  have h := (forked_executeApplicationScript_rewrite "1.2.3.4" 1337
    (fun _ => "/home/test/file")
    { method := "executeApplicationScript", url := some "http://localhost:8081/test-url" }
    "http://localhost:8081/test-url" rfl rfl).1
  exact ⟨rfl, h.trans (by decide)⟩

/-- C4: after an unexpected socket close, exactly one reconnection attempt is
scheduled and it fires no earlier than 100 ms after the close event; when the
close reason contains the another-debugger marker, no reconnection attempt
occurs. -/
theorem reconnect_after_close (reason : String) (closeTime : Nat) :
    (strContainsB reason ANOTHER_DEBUGGER_MARKER = false →
      (CM.handleClose reason closeTime).length = 1 ∧
      ∀ t ∈ CM.handleClose reason closeTime, closeTime + 100 ≤ t) ∧
    (strContainsB reason ANOTHER_DEBUGGER_MARKER = true →
      CM.handleClose reason closeTime = []) := by
  constructor
  · intro h
    simp [CM.handleClose, h]
  · intro h
    simp [CM.handleClose, h]

/-- C4 witness: an ordinary close reason schedules one attempt at
`closeTime + 100`, the another-debugger close reason schedules none. -/
theorem reconnect_after_close_witness :
    strContainsB "connection reset" ANOTHER_DEBUGGER_MARKER = false ∧
    (CM.handleClose "connection reset" 7).length = 1 ∧
    (∀ t ∈ CM.handleClose "connection reset" 7, 7 + 100 ≤ t) ∧
    CM.handleClose "Another debugger is already connected" 7 = [] := by
  have h1 := (reconnect_after_close "connection reset" 7).1 (by decide)
  have h2 := (reconnect_after_close "Another debugger is already connected" 7).2 (by decide)
  exact ⟨by decide, h1.1, h1.2, h2⟩

/-! ### Trace lemmas for the ConnectionManager model -/

/-- `createdIn` distributes over trace concatenation. -/
theorem createdIn_append (t1 t2 : List CMEvent) :
    createdIn (t1 ++ t2) = createdIn t1 ++ createdIn t2 := by
  simp [createdIn]

/-- `stoppedIn` distributes over trace concatenation. -/
theorem stoppedIn_append (t1 t2 : List CMEvent) :
    stoppedIn (t1 ++ t2) = stoppedIn t1 ++ stoppedIn t2 := by
  simp [stoppedIn]

/-- Rewrites `activeAfter` through given created/stopped computations. -/
theorem activeAfter_of (tr : List CMEvent) (c s : List Nat)
    (hc : createdIn tr = c) (hs : stoppedIn tr = s) :
    activeAfter tr = c.filter fun w => decide (¬ w ∈ s) := by
  rw [activeAfter, hc, hs]

/-- A range filtered by non-membership in itself is empty. -/
theorem filter_range_self (n : Nat) :
    (List.range n).filter (fun w => decide (¬ w ∈ List.range n)) = [] := by
  refine List.filter_eq_nil_iff.mpr fun a ha => ?_
  simp [ha]

/-- Filtering `range (k+1)` by non-membership in `range k` leaves `[k]`. -/
theorem filter_range_succ (k : Nat) :
    (List.range (k + 1)).filter (fun w => decide (¬ w ∈ List.range k)) = [k] := by
  rw [List.range_succ, List.filter_append]
  have h1 : (List.range k).filter (fun w => decide (¬ w ∈ List.range k)) = [] := by
    refine List.filter_eq_nil_iff.mpr fun a ha => ?_
    simp [ha]
  have h2 : [k].filter (fun w => decide (¬ w ∈ List.range k)) = [k] := by
    simp [List.mem_range]
  rw [h1, h2, List.nil_append]

/-- Extending a trace by a block preserves `GoodTrace` provided the property
holds across every split point inside the block. -/
theorem goodTrace_append_block (tr evs : List CMEvent)
    (hGood : GoodTrace tr)
    (hblock : ∀ c' t2 : List CMEvent, evs = c' ++ t2 →
      (activeAfter (tr ++ c')).length ≤ 1 ∧
      (∀ w t2', t2 = CMEvent.createWorker w :: t2' → activeAfter (tr ++ c') = [])) :
    GoodTrace (tr ++ evs) := by
  intro t1 t2 h
  rcases List.append_eq_append_iff.mp h.symm with ⟨a', ha1, ha2⟩ | ⟨c', hc1, hc2⟩
  · -- ha1 : tr = t1 ++ a', ha2 : t2 = a' ++ evs — the split point lies inside tr
    refine ⟨(hGood t1 a' ha1).1, fun w t2' ht => ?_⟩
    rcases a' with _ | ⟨e, a''⟩
    · -- t1 is all of tr and t2 is all of evs
      rw [List.append_nil] at ha1
      rw [List.nil_append] at ha2
      have hb := hblock [] t2 (by rw [ha2, List.nil_append])
      have hb2 := hb.2 w t2' ht
      rwa [List.append_nil, ha1] at hb2
    · -- the createWorker event heading t2 is still inside tr
      have hcomb : CMEvent.createWorker w :: t2' = e :: (a'' ++ evs) := by
        rw [← ht, ha2]
        rfl
      have he := ((List.cons.injEq _ _ _ _).mp hcomb).1
      exact (hGood t1 (e :: a'') ha1).2 w a'' (by rw [he])
  · -- hc1 : t1 = tr ++ c', hc2 : evs = c' ++ t2 — the split point lies inside evs
    subst hc1
    exact hblock c' t2 hc2

/-- All ways to split a three-element list into a prefix and a suffix. -/
theorem split3 {α : Type} (e1 e2 e3 : α) (c' t2 : List α) (h : [e1, e2, e3] = c' ++ t2) :
    (c' = [] ∧ t2 = [e1, e2, e3]) ∨ (c' = [e1] ∧ t2 = [e2, e3]) ∨
    (c' = [e1, e2] ∧ t2 = [e3]) ∨ (c' = [e1, e2, e3] ∧ t2 = []) := by
  rcases c' with _ | ⟨x1, c'⟩
  · simp_all
  · rcases c' with _ | ⟨x2, c'⟩
    · simp_all
    · rcases c' with _ | ⟨x3, c'⟩
      · simp_all
      · rcases c' with _ | ⟨x4, c'⟩ <;> simp_all

/-- All ways to split a four-element list into a prefix and a suffix. -/
theorem split4 {α : Type} (e1 e2 e3 e4 : α) (c' t2 : List α) (h : [e1, e2, e3, e4] = c' ++ t2) :
    (c' = [] ∧ t2 = [e1, e2, e3, e4]) ∨ (c' = [e1] ∧ t2 = [e2, e3, e4]) ∨
    (c' = [e1, e2] ∧ t2 = [e3, e4]) ∨ (c' = [e1, e2, e3] ∧ t2 = [e4]) ∨
    (c' = [e1, e2, e3, e4] ∧ t2 = []) := by
  rcases c' with _ | ⟨x1, c'⟩
  · simp_all
  · rcases c' with _ | ⟨x2, c'⟩
    · simp_all
    · rcases c' with _ | ⟨x3, c'⟩
      · simp_all
      · rcases c' with _ | ⟨x4, c'⟩
        · simp_all
        · rcases c' with _ | ⟨x5, c'⟩ <;> simp_all

/-- Appending events that neither create nor stop workers does not change the
active set. -/
theorem activeAfter_append_neutral (tr evs : List CMEvent)
    (hc : createdIn evs = []) (hs : stoppedIn evs = []) :
    activeAfter (tr ++ evs) = activeAfter tr := by
  unfold activeAfter
  rw [createdIn_append, stoppedIn_append, hc, hs, List.append_nil, List.append_nil]


/-- One message step preserves the state/trace invariant and trace safety. -/
theorem step_preserves (st : CMState) (m : WireMessage) (tr : List CMEvent)
    (hInv : CMInv st tr) (hGood : GoodTrace tr) :
    CMInv (CM.handleMessage st m).1 (tr ++ (CM.handleMessage st m).2) ∧
    GoodTrace (tr ++ (CM.handleMessage st m).2) := by
  by_cases hm : m.method = "prepareJSRuntime"
  · rcases hInv with ⟨hw, hn, hc, hs⟩ | ⟨k, hw, hn, hc, hs⟩
    · -- no worker yet: events are create 0, settle 0, reply
      have hev : (CM.handleMessage st m).2 =
          [CMEvent.createWorker 0, CMEvent.startSettled 0, CMEvent.sendReply m.id] := by
        simp [CM.handleMessage, hm, hw, hn]
      have hst : (CM.handleMessage st m).1 = { activeWorker := some 0, nextId := 1 } := by
        simp [CM.handleMessage, hm, hn]
      have hA0 : activeAfter tr = [] := by
        rw [activeAfter_of tr [] [] hc hs]
        rfl
      have hAmk : ∀ evs2 : List CMEvent, createdIn evs2 = [] → stoppedIn evs2 = [] →
          activeAfter (tr ++ CMEvent.createWorker 0 :: evs2) = [0] := by
        intro evs2 hc2 hs2
        have e1 : tr ++ CMEvent.createWorker 0 :: evs2 =
            (tr ++ [CMEvent.createWorker 0]) ++ evs2 := by simp
        rw [e1, activeAfter_append_neutral _ _ hc2 hs2]
        have hc3 : createdIn (tr ++ [CMEvent.createWorker 0]) = [0] := by
          rw [createdIn_append, hc]
          rfl
        have hs3 : stoppedIn (tr ++ [CMEvent.createWorker 0]) = [] := by
          rw [stoppedIn_append, hs]
          rfl
        rw [activeAfter_of _ _ _ hc3 hs3]
        rfl
      constructor
      · right
        refine ⟨0, by rw [hst], by rw [hst], ?_, ?_⟩
        · rw [hev, createdIn_append, hc]
          rfl
        · rw [hev, stoppedIn_append, hs]
          rfl
      · rw [hev]
        apply goodTrace_append_block _ _ hGood
        intro c' t2 hevs
        rcases split3 _ _ _ _ _ hevs with ⟨rfl, rfl⟩ | ⟨rfl, rfl⟩ | ⟨rfl, rfl⟩ | ⟨rfl, rfl⟩
        · rw [List.append_nil]
          exact ⟨by rw [hA0]; simp, fun w t2' ht => hA0⟩
        · have hAc := hAmk [] rfl rfl
          rw [show tr ++ [CMEvent.createWorker 0] =
            tr ++ CMEvent.createWorker 0 :: ([] : List CMEvent) from rfl]
          exact ⟨by rw [hAc]; simp, fun w t2' ht => by simp at ht⟩
        · have hAc := hAmk [CMEvent.startSettled 0] rfl rfl
          rw [show tr ++ [CMEvent.createWorker 0, CMEvent.startSettled 0] =
            tr ++ CMEvent.createWorker 0 :: [CMEvent.startSettled 0] from rfl]
          exact ⟨by rw [hAc]; simp, fun w t2' ht => by simp at ht⟩
        · have hAc := hAmk [CMEvent.startSettled 0, CMEvent.sendReply m.id] rfl rfl
          rw [show tr ++ [CMEvent.createWorker 0, CMEvent.startSettled 0,
              CMEvent.sendReply m.id] =
            tr ++ CMEvent.createWorker 0 :: [CMEvent.startSettled 0, CMEvent.sendReply m.id]
            from rfl]
          exact ⟨by rw [hAc]; simp, fun w t2' ht => by simp at ht⟩
    · -- worker k active: events are stop k, create (k+1), settle (k+1), reply
      have hev : (CM.handleMessage st m).2 =
          [CMEvent.stopWorker k, CMEvent.createWorker (k + 1),
           CMEvent.startSettled (k + 1), CMEvent.sendReply m.id] := by
        simp [CM.handleMessage, hm, hw, hn]
      have hst : (CM.handleMessage st m).1 =
          { activeWorker := some (k + 1), nextId := k + 2 } := by
        simp [CM.handleMessage, hm, hn]
      have hA0 : activeAfter tr = [k] := by
        rw [activeAfter_of tr _ _ hc hs]
        exact filter_range_succ k
      have hc1 : createdIn (tr ++ [CMEvent.stopWorker k]) = List.range (k + 1) := by
        rw [createdIn_append, hc]
        simp [createdIn]
      have hs1 : stoppedIn (tr ++ [CMEvent.stopWorker k]) = List.range (k + 1) := by
        rw [stoppedIn_append, hs, List.range_succ]
        rfl
      have hA1 : activeAfter (tr ++ [CMEvent.stopWorker k]) = [] := by
        rw [activeAfter_of _ _ _ hc1 hs1]
        exact filter_range_self (k + 1)
      have hAmk : ∀ evs2 : List CMEvent, createdIn evs2 = [] → stoppedIn evs2 = [] →
          activeAfter (tr ++ (CMEvent.stopWorker k :: CMEvent.createWorker (k + 1) :: evs2)) =
            [k + 1] := by
        intro evs2 hc2 hs2
        have e1 : tr ++ (CMEvent.stopWorker k :: CMEvent.createWorker (k + 1) :: evs2) =
            (tr ++ [CMEvent.stopWorker k, CMEvent.createWorker (k + 1)]) ++ evs2 := by simp
        rw [e1, activeAfter_append_neutral _ _ hc2 hs2]
        have hc2' : createdIn (tr ++ [CMEvent.stopWorker k, CMEvent.createWorker (k + 1)]) =
            List.range (k + 2) := by
          rw [createdIn_append, hc]
          have : createdIn [CMEvent.stopWorker k, CMEvent.createWorker (k + 1)] = [k + 1] := rfl
          rw [this, ← List.range_succ]
        have hs2' : stoppedIn (tr ++ [CMEvent.stopWorker k, CMEvent.createWorker (k + 1)]) =
            List.range (k + 1) := by
          rw [stoppedIn_append, hs]
          have : stoppedIn [CMEvent.stopWorker k, CMEvent.createWorker (k + 1)] = [k] := rfl
          rw [this, ← List.range_succ]
        rw [activeAfter_of _ _ _ hc2' hs2']
        exact filter_range_succ (k + 1)
      constructor
      · right
        refine ⟨k + 1, by rw [hst], by rw [hst], ?_, ?_⟩
        · rw [hev, createdIn_append, hc]
          have : createdIn [CMEvent.stopWorker k, CMEvent.createWorker (k + 1),
              CMEvent.startSettled (k + 1), CMEvent.sendReply m.id] = [k + 1] := rfl
          rw [this, ← List.range_succ]
        · rw [hev, stoppedIn_append, hs]
          have : stoppedIn [CMEvent.stopWorker k, CMEvent.createWorker (k + 1),
              CMEvent.startSettled (k + 1), CMEvent.sendReply m.id] = [k] := rfl
          rw [this, ← List.range_succ]
      · rw [hev]
        apply goodTrace_append_block _ _ hGood
        intro c' t2 hevs
        rcases split4 _ _ _ _ _ _ hevs with
          ⟨rfl, rfl⟩ | ⟨rfl, rfl⟩ | ⟨rfl, rfl⟩ | ⟨rfl, rfl⟩ | ⟨rfl, rfl⟩
        · rw [List.append_nil]
          exact ⟨by rw [hA0]; simp, fun w t2' ht => by simp at ht⟩
        · exact ⟨by rw [hA1]; simp, fun w t2' ht => hA1⟩
        · have hAc := hAmk [] rfl rfl
          rw [show tr ++ [CMEvent.stopWorker k, CMEvent.createWorker (k + 1)] =
            tr ++ (CMEvent.stopWorker k :: CMEvent.createWorker (k + 1) ::
              ([] : List CMEvent)) from rfl]
          exact ⟨by rw [hAc]; simp, fun w t2' ht => by simp at ht⟩
        · have hAc := hAmk [CMEvent.startSettled (k + 1)] rfl rfl
          rw [show tr ++ [CMEvent.stopWorker k, CMEvent.createWorker (k + 1),
              CMEvent.startSettled (k + 1)] =
            tr ++ (CMEvent.stopWorker k :: CMEvent.createWorker (k + 1) ::
              [CMEvent.startSettled (k + 1)]) from rfl]
          exact ⟨by rw [hAc]; simp, fun w t2' ht => by simp at ht⟩
        · have hAc := hAmk [CMEvent.startSettled (k + 1), CMEvent.sendReply m.id] rfl rfl
          rw [show tr ++ [CMEvent.stopWorker k, CMEvent.createWorker (k + 1),
              CMEvent.startSettled (k + 1), CMEvent.sendReply m.id] =
            tr ++ (CMEvent.stopWorker k :: CMEvent.createWorker (k + 1) ::
              [CMEvent.startSettled (k + 1), CMEvent.sendReply m.id]) from rfl]
          exact ⟨by rw [hAc]; simp, fun w t2' ht => by simp at ht⟩
  · -- any other method: forwarded or dropped; state unchanged, no create/stop
    have hneutral : createdIn (CM.handleMessage st m).2 = [] ∧
        stoppedIn (CM.handleMessage st m).2 = [] ∧
        (CM.handleMessage st m).1 = st ∧
        ((CM.handleMessage st m).2 = [] ∨
          ∃ w, (CM.handleMessage st m).2 = [CMEvent.forward w m]) := by
      rcases hw : st.activeWorker with _ | w
      · refine ⟨?_, ?_, ?_, Or.inl ?_⟩ <;> simp [CM.handleMessage, hm, hw, createdIn, stoppedIn]
      · refine ⟨?_, ?_, ?_, Or.inr ⟨w, ?_⟩⟩ <;>
          simp [CM.handleMessage, hm, hw, createdIn, stoppedIn]
    constructor
    · rw [hneutral.2.2.1]
      rcases hInv with ⟨hw, hn, hc, hs⟩ | ⟨k, hw, hn, hc, hs⟩
      · exact Or.inl ⟨hw, hn,
          by rw [createdIn_append, hc, hneutral.1]; rfl,
          by rw [stoppedIn_append, hs, hneutral.2.1]; rfl⟩
      · exact Or.inr ⟨k, hw, hn,
          by rw [createdIn_append, hc, hneutral.1, List.append_nil],
          by rw [stoppedIn_append, hs, hneutral.2.1, List.append_nil]⟩
    · apply goodTrace_append_block _ _ hGood
      intro c' t2 hevs
      have hlen : (activeAfter tr).length ≤ 1 := (hGood tr [] (by simp)).1
      rcases hneutral.2.2.2 with h0 | ⟨w, h1⟩
      · rw [h0] at hevs
        rcases List.append_eq_nil.mp hevs.symm with ⟨rfl, rfl⟩
        rw [List.append_nil]
        exact ⟨hlen, fun w t2' ht => by simp at ht⟩
      · rw [h1] at hevs
        rcases c' with _ | ⟨x1, c'⟩
        · rw [List.nil_append] at hevs
          rw [List.append_nil]
          refine ⟨hlen, fun w' t2' ht => ?_⟩
          rw [← hevs] at ht
          simp at ht
        · have hx := (List.cons.injEq _ _ _ _).mp hevs
          rcases List.append_eq_nil.mp hx.2.symm with ⟨rfl, rfl⟩
          rw [← hx.1]
          refine ⟨?_, fun w' t2' ht => by simp at ht⟩
          rw [activeAfter_append_neutral tr [CMEvent.forward w m] rfl rfl]
          exact hlen

/-- Processing a message sequence preserves the invariant and trace safety. -/
theorem run_preserves (msgs : List WireMessage) : ∀ (st : CMState) (tr : List CMEvent),
    CMInv st tr → GoodTrace tr →
    CMInv (CM.run st msgs).1 (tr ++ (CM.run st msgs).2) ∧
    GoodTrace (tr ++ (CM.run st msgs).2) := by
  induction msgs with
  | nil =>
    intro st tr h1 h2
    rw [show (CM.run st []).2 = [] from rfl, List.append_nil]
    exact ⟨h1, h2⟩
  | cons m ms ih =>
    intro st tr h1 h2
    have hstep := step_preserves st m tr h1 h2
    have hrec := ih (CM.handleMessage st m).1 (tr ++ (CM.handleMessage st m).2) hstep.1 hstep.2
    have heq : tr ++ (CM.run st (m :: ms)).2 =
        (tr ++ (CM.handleMessage st m).2) ++ (CM.run (CM.handleMessage st m).1 ms).2 := by
      rw [show (CM.run st (m :: ms)).2 =
        (CM.handleMessage st m).2 ++ (CM.run (CM.handleMessage st m).1 ms).2 from rfl]
      rw [List.append_assoc]
    have hfst : (CM.run st (m :: ms)).1 = (CM.run (CM.handleMessage st m).1 ms).1 := rfl
    rw [heq, hfst]
    exact hrec

/-- The empty trace is safe. -/
theorem goodTrace_nil : GoodTrace [] := by
  intro a b hab
  rcases List.append_eq_nil.mp hab.symm with ⟨rfl, rfl⟩
  refine ⟨by simp [activeAfter, createdIn], fun w t2' ht => by simp at ht⟩

/-- C1: over any sequence of wire messages processed by the ConnectionManager,
at every instant of the emitted event trace at most one SandboxWorker is
active, and at the instant a new worker is created no worker is active — the
previously active one has already been stopped. -/
theorem cm_single_active_lifetime (msgs : List WireMessage) (t1 t2 : List CMEvent)
    (h : (CM.run CMState.init msgs).2 = t1 ++ t2) :
    (activeAfter t1).length ≤ 1 ∧
    (∀ w t2', t2 = CMEvent.createWorker w :: t2' → activeAfter t1 = []) := by
  have h0 : CMInv CMState.init [] := Or.inl ⟨rfl, rfl, rfl, rfl⟩
  have hg := (run_preserves msgs CMState.init [] h0 goodTrace_nil).2
  rw [List.nil_append] at hg
  exact hg t1 t2 h

/-- C1 witness: two consecutive `prepareJSRuntime` messages; at the instant
worker 1 is created, worker 0 has already been stopped and no worker is
active. -/
theorem cm_single_active_lifetime_witness :
    ((CM.run CMState.init
        [{ method := "prepareJSRuntime", id := some 1 },
         { method := "prepareJSRuntime", id := some 2 }]).2 =
      [CMEvent.createWorker 0, CMEvent.startSettled 0, CMEvent.sendReply (some 1),
        CMEvent.stopWorker 0] ++
      [CMEvent.createWorker 1, CMEvent.startSettled 1, CMEvent.sendReply (some 2)]) ∧
    (activeAfter [CMEvent.createWorker 0, CMEvent.startSettled 0, CMEvent.sendReply (some 1),
        CMEvent.stopWorker 0]).length ≤ 1 ∧
    (∀ w t2', [CMEvent.createWorker 1, CMEvent.startSettled 1, CMEvent.sendReply (some 2)] =
        CMEvent.createWorker w :: t2' →
      activeAfter [CMEvent.createWorker 0, CMEvent.startSettled 0, CMEvent.sendReply (some 1),
        CMEvent.stopWorker 0] = []) := by
  have h := cm_single_active_lifetime
    [{ method := "prepareJSRuntime", id := some 1 },
     { method := "prepareJSRuntime", id := some 2 }]
    [CMEvent.createWorker 0, CMEvent.startSettled 0, CMEvent.sendReply (some 1),
      CMEvent.stopWorker 0]
    [CMEvent.createWorker 1, CMEvent.startSettled 1, CMEvent.sendReply (some 2)]
    (by decide)
  exact ⟨by decide, h.1, h.2⟩

/-- The replies one step emits: one for an accepted `prepareJSRuntime` with the
matching id, none otherwise. -/
theorem step_reply_count (st : CMState) (m : WireMessage) (n : Option Int) :
    ((CM.handleMessage st m).2.countP fun e => decide (e = CMEvent.sendReply n)) =
      (if m.method = "prepareJSRuntime" ∧ m.id = n then 1 else 0) := by
  by_cases hm : m.method = "prepareJSRuntime"
  · rcases hw : st.activeWorker with _ | k <;>
      by_cases hid : m.id = n <;>
        simp [CM.handleMessage, hm, hw, hid, List.countP_cons, List.countP_append]
  · rcases hw : st.activeWorker with _ | k <;>
      simp [CM.handleMessage, hm, hw, List.countP_cons]

/-- Each accepted `prepareJSRuntime` with id `n` contributes exactly one
`sendReply n` to the run's event trace. -/
theorem run_reply_count (msgs : List WireMessage) (n : Option Int) : ∀ st : CMState,
    ((CM.run st msgs).2.countP fun e => decide (e = CMEvent.sendReply n)) =
      msgs.countP fun m => decide (m.method = "prepareJSRuntime" ∧ m.id = n) := by
  induction msgs with
  | nil => intro st; rfl
  | cons m ms ih =>
    intro st
    rw [show (CM.run st (m :: ms)).2 =
      (CM.handleMessage st m).2 ++ (CM.run (CM.handleMessage st m).1 ms).2 from rfl]
    rw [List.countP_append, step_reply_count, ih, List.countP_cons]
    by_cases h : m.method = "prepareJSRuntime" ∧ m.id = n <;> simp [h, Nat.add_comm]

/-- The empty trace is reply-guarded. -/
theorem replyGuarded_nil : ReplyGuarded [] := by
  intro n t1 t2 h
  rcases List.append_eq_nil.mp h.symm with ⟨rfl, h2⟩
  simp at h2

/-- One step preserves reply-guardedness: the only reply a step emits comes
right after the `createWorker`/`startSettled` pair of the worker it started. -/
theorem step_replyGuarded (st : CMState) (m : WireMessage) (tr : List CMEvent)
    (h : ReplyGuarded tr) :
    ReplyGuarded (tr ++ (CM.handleMessage st m).2) := by
  intro n t1 t2 hsplit
  rcases List.append_eq_append_iff.mp hsplit with ⟨a', ha1, ha2⟩ | ⟨c', hc1, hc2⟩
  · -- ha1 : t1 = tr ++ a', ha2 : (CM.handleMessage st m).2 = a' ++ sendReply n :: t2
    by_cases hm : m.method = "prepareJSRuntime"
    · rcases hw : st.activeWorker with _ | k
      · have hev : (CM.handleMessage st m).2 =
            [CMEvent.createWorker st.nextId, CMEvent.startSettled st.nextId,
             CMEvent.sendReply m.id] := by
          simp [CM.handleMessage, hm, hw]
        rw [hev] at ha2
        rcases split3 _ _ _ _ _ ha2 with ⟨rfl, he⟩ | ⟨rfl, he⟩ | ⟨rfl, he⟩ | ⟨rfl, he⟩
        · simp at he
        · simp at he
        · refine ⟨tr, st.nextId, ?_⟩
          rw [ha1]
        · simp at he
      · have hev : (CM.handleMessage st m).2 =
            [CMEvent.stopWorker k, CMEvent.createWorker st.nextId,
             CMEvent.startSettled st.nextId, CMEvent.sendReply m.id] := by
          simp [CM.handleMessage, hm, hw]
        rw [hev] at ha2
        rcases split4 _ _ _ _ _ _ ha2 with
          ⟨rfl, he⟩ | ⟨rfl, he⟩ | ⟨rfl, he⟩ | ⟨rfl, he⟩ | ⟨rfl, he⟩
        · simp at he
        · simp at he
        · simp at he
        · refine ⟨tr ++ [CMEvent.stopWorker k], st.nextId, ?_⟩
          rw [ha1]
          simp
        · simp at he
    · rcases hw : st.activeWorker with _ | w
      · have hev : (CM.handleMessage st m).2 = [] := by
          simp [CM.handleMessage, hm, hw]
        rw [hev] at ha2
        rcases List.append_eq_nil.mp ha2.symm with ⟨rfl, h2⟩
        simp at h2
      · have hev : (CM.handleMessage st m).2 = [CMEvent.forward w m] := by
          simp [CM.handleMessage, hm, hw]
        rw [hev] at ha2
        rcases a' with _ | ⟨x1, a''⟩
        · rw [List.nil_append] at ha2
          simp at ha2
        · have hx := (List.cons.injEq _ _ _ _).mp ha2
          rcases List.append_eq_nil.mp hx.2.symm with ⟨rfl, h2⟩
          simp at h2
  · -- hc1 : tr = t1 ++ c', hc2 : sendReply n :: t2 = c' ++ (CM.handleMessage st m).2
    rcases c' with _ | ⟨e, c''⟩
    · -- the reply would have to head the step's event block, which never happens
      rw [List.nil_append] at hc2
      by_cases hm : m.method = "prepareJSRuntime"
      · rcases hw : st.activeWorker with _ | k
        · have hev : (CM.handleMessage st m).2 =
              [CMEvent.createWorker st.nextId, CMEvent.startSettled st.nextId,
               CMEvent.sendReply m.id] := by
            simp [CM.handleMessage, hm, hw]
          rw [hev] at hc2
          simp at hc2
        · have hev : (CM.handleMessage st m).2 =
              [CMEvent.stopWorker k, CMEvent.createWorker st.nextId,
               CMEvent.startSettled st.nextId, CMEvent.sendReply m.id] := by
            simp [CM.handleMessage, hm, hw]
          rw [hev] at hc2
          simp at hc2
      · rcases hw : st.activeWorker with _ | w
        · have hev : (CM.handleMessage st m).2 = [] := by
            simp [CM.handleMessage, hm, hw]
          rw [hev] at hc2
          simp at hc2
        · have hev : (CM.handleMessage st m).2 = [CMEvent.forward w m] := by
            simp [CM.handleMessage, hm, hw]
          rw [hev] at hc2
          simp at hc2
    · -- the reply lies inside `tr`: use the hypothesis on `tr`
      have hx := (List.cons.injEq _ _ _ _).mp hc2
      have : tr = t1 ++ CMEvent.sendReply n :: c'' := by
        rw [hc1, ← hx.1]
      exact h n t1 c'' this

/-- A whole run emits a reply-guarded trace. -/
theorem run_replyGuarded (msgs : List WireMessage) : ∀ (st : CMState) (tr : List CMEvent),
    ReplyGuarded tr → ReplyGuarded (tr ++ (CM.run st msgs).2) := by
  induction msgs with
  | nil =>
    intro st tr h
    rw [show (CM.run st []).2 = [] from rfl, List.append_nil]
    exact h
  | cons m ms ih =>
    intro st tr h
    have hstep := step_replyGuarded st m tr h
    have hrec := ih (CM.handleMessage st m).1 (tr ++ (CM.handleMessage st m).2) hstep
    rw [show (CM.run st (m :: ms)).2 =
      (CM.handleMessage st m).2 ++ (CM.run (CM.handleMessage st m).1 ms).2 from rfl]
    rw [← List.append_assoc]
    exact hrec

/-- C3: for every accepted `prepareJSRuntime` message carrying id `n`, exactly
one reply `{"replyID": n}` appears in the trace (the reply count equals the
count of such messages), and every reply event is immediately preceded by the
created worker's `startSettled` event — the reply is never sent before the new
SandboxWorker's `start()` promise has settled. -/
theorem cm_reply_once_after_start (msgs : List WireMessage) (n : Option Int) :
    ((CM.run CMState.init msgs).2.countP fun e => decide (e = CMEvent.sendReply n)) =
      (msgs.countP fun m => decide (m.method = "prepareJSRuntime" ∧ m.id = n)) ∧
    ∀ t1 t2 : List CMEvent,
      (CM.run CMState.init msgs).2 = t1 ++ CMEvent.sendReply n :: t2 →
      ∃ t0 w, t1 = t0 ++ [CMEvent.createWorker w, CMEvent.startSettled w] := by
  constructor
  · exact run_reply_count msgs n CMState.init
  · have h := run_replyGuarded msgs CMState.init [] replyGuarded_nil
    rw [List.nil_append] at h
    exact fun t1 t2 hsplit => h n t1 t2 hsplit

/-- C3 witness: the scenario of the unit test — one `prepareJSRuntime` with
id 1 produces exactly one reply, sent right after the worker's start
settles. -/
theorem cm_reply_once_after_start_witness :
    ((CM.run CMState.init [{ method := "prepareJSRuntime", id := some 1 }]).2.countP
        fun e => decide (e = CMEvent.sendReply (some 1))) =
      ([{ method := "prepareJSRuntime", id := some 1 }].countP
        fun m : WireMessage => decide (m.method = "prepareJSRuntime" ∧ m.id = some 1)) ∧
    ((CM.run CMState.init [{ method := "prepareJSRuntime", id := some 1 }]).2 =
      [CMEvent.createWorker 0, CMEvent.startSettled 0] ++ CMEvent.sendReply (some 1) :: []) ∧
    ∃ t0 w, [CMEvent.createWorker 0, CMEvent.startSettled 0] =
      t0 ++ [CMEvent.createWorker w, CMEvent.startSettled w] := by
  have h := cm_reply_once_after_start [{ method := "prepareJSRuntime", id := some 1 }] (some 1)
  exact ⟨h.1, by decide,
    h.2 [CMEvent.createWorker 0, CMEvent.startSettled 0] [] (by decide)⟩
